import Mathlib

/-!
Shallow embedding of the feature matrix engine of this repository:
`spica/featmat.py` (classes `FeatureMatrix` and `Labeling`) and the feature
calculation entry points of `spice/featext.py` (class `FeatureExtraction`).

Conventions of the embedding:
* Python attributes initialized to `None` are modelled as `Option`.
* Every mutating method returns `Except (String × FM) FM`: an `Except.error`
  carries the exception message together with the state of the object at the
  moment the exception is raised, so partially-mutated states are visible.
* Python dicts are modelled as association lists with unique keys, with
  insertion-order preserved (`dictInsert` overwrites in place, `dictAppend`
  mirrors `dict.setdefault(k, []).append(v)`).
* `numpy` 2-D arrays are modelled as `NPMat`: an explicit shape together with
  the row-major data.  Matrix entries are real numbers (the idealization of
  the floating point arithmetic used by the source).
* Python `sorted` on lists of natural numbers is `pySort`
  (`List.insertionSort (· ≤ ·)`).
-/

namespace Spica

/-- Python `sorted` for lists of natural numbers (ascending). -/
def pySort (l : List ℕ) : List ℕ := List.insertionSort (· ≤ ·) l

/-- Splitting a character list on a separator character, the semantics of
Python `str.split(sep)` for a one-character separator. -/
def splitOnChar (sep : Char) : List Char → List (List Char)
  | [] => [[]]
  | c :: rest =>
    if c = sep then [] :: splitOnChar sep rest
    else match splitOnChar sep rest with
      | [] => [[c]]
      | g :: gs => (c :: g) :: gs

/-- Python `s.split(sep)` for a one-character separator. -/
def pySplit (s : String) (sep : Char) : List String :=
  (splitOnChar sep s.toList).map (fun cs => String.mk cs)

/-- Lexicographic comparison of character lists (Python string `<`). -/
def charListLt : List Char → List Char → Bool
  | [], [] => false
  | [], _ :: _ => true
  | _ :: _, [] => false
  | x :: xs, y :: ys =>
    if x < y then true else if y < x then false else charListLt xs ys

/-- Python string comparison `a < b` (code-point lexicographic). -/
def pyStrLt (a b : String) : Bool := charListLt a.toList b.toList

/-- Python dict write `d[k] = v`: overwrite the value in place if the key is
present, otherwise append the binding at the end. -/
def dictInsert {α : Type} (d : List (String × α)) (k : String) (v : α) :
    List (String × α) :=
  if d.any (fun p => p.1 == k) then
    d.map (fun p => if p.1 == k then (p.1, v) else p)
  else d ++ [(k, v)]

/-- Python `d.setdefault(k, []).append(v)`. -/
def dictAppend {β : Type} (d : List (String × List β)) (k : String) (v : β) :
    List (String × List β) :=
  if d.any (fun p => p.1 == k) then
    d.map (fun p => if p.1 == k then (p.1, p.2 ++ [v]) else p)
  else d ++ [(k, [v])]

/-- A `numpy` 2-D array: shape plus row-major data.  Well-formed values have
`data.length = nrows` and every row of length `ncols`. -/
structure NPMat where
  nrows : ℕ
  ncols : ℕ
  data : List (List ℝ)

/-- Well-formedness of an `NPMat`: the data agrees with the declared shape. -/
def NPMat.wf (A : NPMat) : Prop :=
  A.data.length = A.nrows ∧ ∀ r ∈ A.data, r.length = A.ncols

/-- `numpy.hstack([A, B])` for two matrices with the same number of rows. -/
def npHstack (A B : NPMat) : NPMat :=
  ⟨A.nrows, A.ncols + B.ncols, List.zipWith (fun r t => r ++ t) A.data B.data⟩

/-- Column `j` of a matrix, as read by `numpy` column-wise operations
(`mat[:, j]`); out-of-shape reads default to `0` and never occur on
well-formed input. -/
def npCol (A : NPMat) (j : ℕ) : List ℝ :=
  A.data.map (fun r => r.getD j 0)

/-- `self.feature_matrix[:, feat_is]` followed by `data[object_is, :]`
(featmat.py, `FeatureMatrix.slice`). -/
def npSlice (A : NPMat) (feat_is obj_is : List ℕ) : NPMat :=
  ⟨obj_is.length, feat_is.length,
    obj_is.map (fun i => feat_is.map (fun j => (A.data.getD i []).getD j 0))⟩

/-- `numpy.mean(xs)` of a list of reals. -/
noncomputable def lmean (xs : List ℝ) : ℝ := xs.sum / xs.length

/-- Population variance, the square of `numpy.std(xs)` (ddof = 0). -/
noncomputable def lvar (xs : List ℝ) : ℝ :=
  ((xs.map (fun x => (x - lmean xs) ^ 2)).sum) / xs.length

/-- `numpy.std(xs)`: the population standard deviation. -/
noncomputable def lstd (xs : List ℝ) : ℝ := Real.sqrt (lvar xs)

/-- The per-column divisor of `FeatureMatrix._standardize`: the population
standard deviation, with zeros reset to one (`std[std == 0.0] = 1.0`). -/
noncomputable def stdAdj (xs : List ℝ) : ℝ :=
  if lstd xs = 0 then 1 else lstd xs

/-- `FeatureMatrix._standardize` (featmat.py lines 191-200): column-wise
`(x - mean) / std` with the protected standard deviation. -/
noncomputable def standardize (A : NPMat) : NPMat :=
  ⟨A.nrows, A.ncols,
    A.data.map (fun r =>
      r.mapIdx (fun j x => (x - lmean (npCol A j)) / stdAdj (npCol A j)))⟩

/-- A `Labeling` (featmat.py lines 702-774): per-object integer label codes in
matrix row order, the class name table indexed by label code, and the derived
reverse map from class name to object row indices. -/
structure Labeling where
  name : String
  labels : List ℤ
  class_names : List String
  object_indices_per_class : List (String × List ℕ)

/-- The state of a `FeatureMatrix` (featmat.py `__init__`): all attributes
start as `None`. -/
structure FM where
  object_ids : Option (List String)
  feature_ids : Option (List String)
  feature_names : Option (List (String × String))
  feature_matrix : Option NPMat
  labeling_dict : Option (List (String × Labeling))

/-- The freshly constructed `FeatureMatrix()`. -/
def FM.init : FM := ⟨none, none, none, none, none⟩

/-- Python list indexing with negative-index wrap-around, as `None` on
IndexError. -/
def pyListGet {α : Type} (xs : List α) (i : ℤ) : Option α :=
  if 0 ≤ i then xs.get? i.toNat
  else if (-i).toNat ≤ xs.length then xs.get? (xs.length - (-i).toNat)
  else none

/-- The reverse map built at the end of `Labeling.set_labels` (featmat.py
lines 747-752): walk the objects in row order and append each row index to
the bucket of its class name `class_names[label]`. -/
def buildObjIdxDict (class_names : List String) (labels : List ℤ) :
    List (String × List ℕ) :=
  (List.range labels.length).foldl
    (fun d i =>
      match pyListGet class_names (labels.getD i 0) with
      | some c => dictAppend d c i
      | none => d)
    []

/-- `Labeling.set_class_names` (featmat.py lines 714-728).  Label values are
integers by construction, so the `type` checks of the source always pass. -/
def set_class_names (L : Labeling) (names : List String) :
    Except String Labeling :=
  match L.labels with
  | [] => Except.error "Cannot set label names, no labels set yet."
  | l :: ls =>
    if ¬ ((names.length : ℤ) > ls.foldl max l) then
      Except.error "Not enough label names provided."
    else Except.ok { L with class_names := names }

/-- `Labeling.set_labels` (featmat.py lines 730-752), with the owning
matrix's object id list passed explicitly in place of the back-reference. -/
def set_labels (L : Labeling) (object_ids : List String)
    (labels_dict : List (String × ℤ)) (class_names : List String) :
    Except String Labeling :=
  let missing := object_ids.filter (fun o => (List.lookup o labels_dict).isNone)
  if missing ≠ [] then Except.error "Labels are missing"
  else
    let labels := object_ids.map (fun o => (List.lookup o labels_dict).getD 0)
    let L1 := { L with labels := labels }
    match set_class_names L1 class_names with
    | Except.error e => Except.error e
    | Except.ok L2 =>
      Except.ok { L2 with
        object_indices_per_class := buildObjIdxDict L2.class_names L2.labels }

/-- Truthiness of an optional list: Python treats both `None` and `[]` as
false. -/
def truthyO {α : Type} (o : Option (List α)) : Bool := !(o.getD []).isEmpty

/-- `FeatureMatrix.add_labeling` (featmat.py lines 112-129).  The labeling
back-reference and its cross-link check are dropped: this embedding handles
one matrix, so a labeling is never linked to a second one. -/
def add_labeling (s : FM) (L : Labeling) : Except (String × FM) FM :=
  if (s.object_ids.getD []).isEmpty then
    Except.error ("Objects are not set.", s)
  else
    Except.ok { s with
      labeling_dict := some (dictInsert (s.labeling_dict.getD []) L.name L) }

/-- `FeatureMatrix.add_labels` (featmat.py lines 106-110): build a fresh
labeling, fill it with `set_labels` and attach it. -/
def add_labels (s : FM) (lname : String) (labels_dict : List (String × ℤ))
    (class_names : List String) : Except (String × FM) FM :=
  match s.object_ids with
  | none => Except.error ("TypeError: NoneType is not iterable", s)
  | some obj =>
    match set_labels ⟨lname, [], [], []⟩ obj labels_dict class_names with
    | Except.error e => Except.error (e, s)
    | Except.ok L => add_labeling s L

/-- `FeatureMatrix.set_object_ids` (featmat.py lines 60-93): refuse a second
binding, refuse duplicate ids, then bind the list and install the default
`one_class` labeling mapping every object to label `0` of class `all`. -/
def set_object_ids (s : FM) (ids : List String) : Except (String × FM) FM :=
  if s.object_ids ≠ none then
    Except.error ("Object ids are allready set.", s)
  else if ids.length ≠ ids.dedup.length then
    Except.error ("There are multiple objects with the same id.", s)
  else
    let s1 := { s with object_ids := some ids }
    add_labels s1 "one_class" (ids.map (fun i => (i, (0 : ℤ)))) ["all"]

/-- `FeatureMatrix._check_features` (featmat.py lines 678-699): the four
validations run in source order, before any mutation. -/
def _check_features (s : FM) (fids : List String) (M : NPMat) :
    Except String Unit :=
  if fids.length ≠ fids.dedup.length then
    Except.error "The added features contain duplicate ids."
  else if (match s.feature_ids with
           | some existing => fids.any (fun f => decide (f ∈ existing))
           | none => false) then
    Except.error "Feature ids already exist."
  else match s.object_ids with
    | none => Except.error "TypeError: object of type NoneType has no len()"
    | some obj =>
      if M.nrows ≠ obj.length then
        Except.error "The number of rows in the feature matrix does not correspond to the number of objects"
      else if M.ncols ≠ fids.length then
        Except.error "The number of columns in the feature matrix does not correspond to the number of provided feature ids."
      else Except.ok ()

/-- The `feature_names.update(...)` tail of `FeatureMatrix.add_features`
(featmat.py lines 146-151), acting on the already-extended state. -/
def addFeatureNames (fids : List String) (names : Option (List String))
    (s1 : FM) : Except (String × FM) FM :=
  let pairs := fids.zip (names.getD fids)
  match s1.feature_names with
  | none => Except.error ("AttributeError: NoneType has no attribute update", s1)
  | some d =>
    Except.ok { s1 with
      feature_names := some (pairs.foldl (fun acc p => dictInsert acc p.1 p.2) d) }

/-- `FeatureMatrix.add_features` (featmat.py lines 131-151): validate, then
either extend the existing block concatenation or install the first block,
then record the display names (defaulting to the ids themselves). -/
def add_features (s : FM) (fids : List String) (M : NPMat)
    (names : Option (List String)) : Except (String × FM) FM :=
  match _check_features s fids M with
  | Except.error e => Except.error (e, s)
  | Except.ok _ =>
    if !(s.feature_ids.getD []).isEmpty then
      match s.feature_matrix with
      | none =>
        Except.error ("TypeError: hstack of NoneType",
          { s with feature_ids := some ((s.feature_ids.getD []) ++ fids) })
      | some A =>
        addFeatureNames fids names
          { s with feature_ids := some ((s.feature_ids.getD []) ++ fids),
                   feature_matrix := some (npHstack A M) }
    else
      addFeatureNames fids names
        { s with feature_ids := some fids, feature_matrix := some M,
                 feature_names := some [] }

/-- `FeatureMatrix.merge` (featmat.py lines 224-234): require identical
object id sequences, then delegate to `add_features` with the other matrix's
feature ids and matrix. -/
def merge (s other : FM) : Except (String × FM) FM :=
  if s.object_ids ≠ other.object_ids then
    Except.error ("Object of the two feature matrices do not correspond.", s)
  else match other.feature_ids, other.feature_matrix with
    | some fids, some M => add_features s fids M none
    | none, _ =>
      Except.error ("TypeError: object of type NoneType has no len()", s)
    | some fids, none =>
      if fids.length ≠ fids.dedup.length then
        Except.error ("The added features contain duplicate ids.", s)
      else if (match s.feature_ids with
               | some existing => fids.any (fun f => decide (f ∈ existing))
               | none => false) then
        Except.error ("Feature ids already exist.", s)
      else
        Except.error ("AttributeError: NoneType has no attribute shape", s)

/-- `self.labeling_dict[labeling_name]` with the Python failure modes:
`TypeError` on a `None` dict and `KeyError` on a missing name. -/
def labelingOf (s : FM) (lname : String) : Except String Labeling :=
  match s.labeling_dict with
  | none => Except.error "TypeError: NoneType is not subscriptable"
  | some d =>
    match List.lookup lname d with
    | some L => Except.ok L
    | none => Except.error ("KeyError: " ++ lname)

/-- `FeatureMatrix.feature_indices` (featmat.py lines 202-211):
`sorted([self.feature_ids.index(f) for f in feature_ids])`; a missing id
raises `ValueError`, a `None` id list raises `AttributeError`. -/
def feature_indices (s : FM) (fids : List String) : Except String (List ℕ) :=
  match s.feature_ids with
  | none => Except.error "AttributeError: NoneType has no attribute index"
  | some all =>
    match fids.mapM (fun f =>
        if f ∈ all then Except.ok (List.indexOf f all)
        else (Except.error ("ValueError: " ++ f ++ " is not in list") :
              Except String ℕ)) with
    | Except.error e => Except.error e
    | Except.ok is => Except.ok (pySort is)

/-- `FeatureMatrix.object_indices` (featmat.py lines 213-218): extend with the
per-class row indices of each requested class, then sort the whole list. -/
def object_indices (s : FM) (lname : String) (cids : List String) :
    Except String (List ℕ) :=
  match labelingOf s lname with
  | Except.error e => Except.error e
  | Except.ok L =>
    match cids.mapM (fun c =>
        match List.lookup c L.object_indices_per_class with
        | some l => Except.ok l
        | none => (Except.error ("KeyError: " ++ c) :
                   Except String (List ℕ))) with
    | Except.error e => Except.error e
    | Except.ok lists => Except.ok (pySort lists.flatten)

/-- `FeatureMatrix.class_indices` (featmat.py lines 220-222):
`sorted([labeling.class_names.index(c) for c in class_ids])`. -/
def class_indices (s : FM) (lname : String) (cids : List String) :
    Except String (List ℕ) :=
  match labelingOf s lname with
  | Except.error e => Except.error e
  | Except.ok L =>
    match cids.mapM (fun c =>
        if c ∈ L.class_names then Except.ok (List.indexOf c L.class_names)
        else (Except.error ("ValueError: " ++ c ++ " is not in list") :
              Except String ℕ)) with
    | Except.error e => Except.error e
    | Except.ok is => Except.ok (pySort is)

/-- `FeatureMatrix.slice` (featmat.py lines 181-183), with the `TypeError` a
`None` matrix would raise. -/
def sliceE (s : FM) (feat_is obj_is : List ℕ) : Except String NPMat :=
  match s.feature_matrix with
  | none => Except.error "TypeError: NoneType is not subscriptable"
  | some A => Except.ok (npSlice A feat_is obj_is)

/-- The value of `dict(zip(class_is, range(len(class_is))))[t]` used to remap
targets in `get_dataset`: later `zip` pairs overwrite earlier ones. -/
def pyZipLookup (ks : List ℕ) (t : ℤ) : Option ℕ :=
  List.lookup t (((ks.map (fun k => (k : ℤ))).zip (List.range ks.length)).reverse)

/-- The tuple returned by `FeatureMatrix.get_dataset`:
`(fm, sample_names, feature_names, target, target_names)`.  The
`feature_names` component holds feature ids, exactly as in the source. -/
structure Dataset where
  fm : NPMat
  sample_names : List String
  feature_names : List String
  target : List ℤ
  target_names : List String

/-- The labeling-name default of `get_dataset`: a falsy (`None` or empty)
labeling name selects `one_class`. -/
def gdName (labeling_name : Option String) : String :=
  match labeling_name with
  | none => "one_class"
  | some n => if n = "" then "one_class" else n

/-- `FeatureMatrix.get_dataset` (featmat.py lines 253-292).  In the branch for
no requested features and no requested classes the source returns the raw
attributes, which this embedding collapses from `None` to `[]`. -/
noncomputable def get_dataset (s : FM) (feat_ids : Option (List String))
    (labeling_name : Option String) (class_ids : Option (List String))
    (standardized : Bool) : Except String Dataset :=
  match labelingOf s (gdName labeling_name) with
  | Except.error e => Except.error e
  | Except.ok L =>
    if truthyO feat_ids || truthyO class_ids then
      match (if truthyO feat_ids then Except.ok (feat_ids.getD [])
             else match s.feature_ids with
               | some l => Except.ok l
               | none => (Except.error "TypeError: NoneType is not iterable" :
                          Except String (List String))) with
      | Except.error e => Except.error e
      | Except.ok fids =>
        match feature_indices s fids with
        | Except.error e => Except.error e
        | Except.ok feat_is =>
          match object_indices s (gdName labeling_name)
              (if truthyO class_ids then class_ids.getD [] else L.class_names) with
          | Except.error e => Except.error e
          | Except.ok object_is =>
            match class_indices s (gdName labeling_name)
                (if truthyO class_ids then class_ids.getD [] else L.class_names) with
            | Except.error e => Except.error e
            | Except.ok class_is =>
              match sliceE s feat_is object_is with
              | Except.error e => Except.error e
              | Except.ok sl =>
                match s.object_ids with
                | none => Except.error "TypeError: NoneType is not subscriptable"
                | some oids =>
                  match (object_is.map (fun i => L.labels.getD i 0)).mapM
                      (fun t => match pyZipLookup class_is t with
                        | some v => Except.ok (v : ℤ)
                        | none => (Except.error "KeyError: target remap" :
                                   Except String ℤ)) with
                  | Except.error e => Except.error e
                  | Except.ok target =>
                    Except.ok ⟨if standardized then standardize sl else sl,
                               object_is.map (fun i => oids.getD i ""),
                               feat_is.map (fun i =>
                                 (s.feature_ids.getD []).getD i ""),
                               target,
                               class_is.map (fun i => L.class_names.getD i "")⟩
    else
      match s.feature_matrix with
      | none => Except.error "TypeError: NoneType feature matrix"
      | some A =>
        Except.ok ⟨if standardized then standardize A else A,
                   s.object_ids.getD [], s.feature_ids.getD [],
                   L.labels, L.class_names⟩

/-- `FeatureMatrix.get_custom_features` (featmat.py lines 236-251): group the
stored feature ids that start with the custom marker `cus` by their block id
(the part before the first underscore). -/
def get_custom_features (s : FM) : List (String × List String) :=
  match s.feature_ids with
  | none => []
  | some fids =>
    fids.foldl (fun d fid =>
      if fid.take 3 = "cus" then dictAppend d ((pySplit fid '_').headD "") fid
      else d) []

/-- A Python value that is either an `int` or a list of strings: the two
shapes `new_cust_feat_i` can take in `FeatureMatrix.add_custom_features`. -/
inductive PyVal : Type where
  | int (n : ℤ)
  | strList (l : List String)

/-- Python `<` on lists of strings (lexicographic elementwise order), used by
`sorted` in `add_custom_features`. -/
def listStrLt : List String → List String → Bool
  | [], [] => false
  | [], _ :: _ => true
  | _ :: _, [] => false
  | x :: xs, y :: ys =>
    if pyStrLt x y then true else if pyStrLt y x then false else listStrLt xs ys

/-- `sorted(cust_feats)[-1]`: the lexicographically largest of the custom
feature id lists (callers pass a non-empty list of non-empty lists). -/
def pyListMax (ls : List (List String)) : List String :=
  ls.foldl (fun acc x => if listStrLt acc x then x else acc) []

/-- `FeatureMatrix.add_custom_features` (featmat.py lines 153-173), statement
by statement.  When custom features exist the source sets
`new_cust_feat_i = sorted(cust_feats)[-1][(len('cus') + 1):]` — a slice of a
list of feature id strings — and then formats it with `'%s%i'`, which raises
`TypeError` because the operand of `%i` is a list, not an integer. -/
def add_custom_features (s : FM) (M : NPMat) : Except (String × FM) FM :=
  match s.object_ids with
  | none => Except.error ("TypeError: object of type NoneType has no len()", s)
  | some obj =>
    if M.nrows ≠ obj.length then
      Except.error ("Feature matrix size does not correspond to number of objects.", s)
    else
      let custVals := (get_custom_features s).map (fun p => p.2)
      let newIdx : PyVal :=
        if custVals.isEmpty then PyVal.int 0
        else PyVal.strList ((pyListMax custVals).drop 4)
      match newIdx with
      | PyVal.strList _ =>
        Except.error ("TypeError: %i format: a number is required, not list", s)
      | PyVal.int n =>
        let featvecId := "cus" ++ toString n
        let featIds := (List.range M.ncols).map (fun i => featvecId ++ "_" ++ toString i)
        let featNames := (List.range M.ncols).map (fun i =>
          "Custom feature vector " ++ toString n ++ " - " ++ toString i)
        add_features s featIds M (some featNames)

/-- A feature category descriptor as consumed by
`FeatureExtraction.calculate_protein_features` and
`calculate_missense_features`.  Modelled from the spec: the concrete
descriptor objects live in the external `spice.protein` and `spice.mutation`
modules (not under src); a descriptor carries its declared parameter count,
the ordered (sub-feature id, display name) lists its computation capability
returns in describe mode, and the per-entity row of feature values (parameter
parsing by the declared types is folded into the descriptor). -/
structure FeatCat where
  paramCount : ℕ
  describeIds : List String
  describeNames : List String
  compute : ℕ → List ℝ

/-- The state of a `FeatureExtraction` (featext.py `__init__`): one protein
and one missense feature matrix.  Modelled from the spec: the two class-level
registries `PROTEIN_FEATURE_CATEGORIES` and `MUTATION_FEATURE_CATEGORIES` are
carried as fields because their values reference external modules. -/
structure FX where
  fm_protein : FM
  fm_missense : FM
  protCats : List (String × FeatCat)
  mutCats : List (String × FeatCat)

/-- The combined-id parsing shared by both calculate functions (featext.py
lines 464-475 and 506-517): `fc_id, params_str = featcat_id.split('_')`
unpacks exactly two parts, so three or more underscore-separated parts raise
`ValueError`. -/
def parseFeatcatId (featcat_id : String) : Except String (String × List String) :=
  if (pySplit featcat_id '_').length = 1 then Except.ok (featcat_id, [])
  else match pySplit featcat_id '_' with
    | [a, b] => Except.ok (a, pySplit b '-')
    | _ => Except.error "ValueError: too many values to unpack"

/-- `FeatureExtraction.calculate_protein_features` (featext.py lines
446-500): assert the protein matrix's object ids are bound (truthy), parse
the combined id, look up the descriptor, check the parameter arity, build the
(object count × sub-feature count) matrix row by row, and append the block to
the protein feature matrix. -/
def calculate_protein_features (st : FX) (featcat_id : String) :
    Except (String × FX) FX :=
  if (st.fm_protein.object_ids.getD []).isEmpty then
    Except.error ("AssertionError", st)
  else
    match parseFeatcatId featcat_id with
    | Except.error e => Except.error (e, st)
    | Except.ok (fcId, params) =>
      match List.lookup fcId st.protCats with
      | none => Except.error ("KeyError: " ++ fcId, st)
      | some cat =>
        if params.length ≠ cat.paramCount then
          Except.error ("AssertionError", st)
        else
          let featIds := cat.describeIds.map (fun i => featcat_id ++ "_" ++ i)
          let n := (st.fm_protein.object_ids.getD []).length
          let M : NPMat := ⟨n, featIds.length, (List.range n).map cat.compute⟩
          match add_features st.fm_protein featIds M (some cat.describeNames) with
          | Except.error (m, fm1) => Except.error (m, { st with fm_protein := fm1 })
          | Except.ok fm1 => Except.ok { st with fm_protein := fm1 }

/-- `FeatureExtraction.calculate_missense_features` (featext.py lines
502-542).  The precondition assert of the source (line 504) reads
`assert(self.fm_protein.object_ids)` — it checks the protein matrix, not the
missense matrix — while line 536 takes `len(self.fm_missense.object_ids)`,
which raises `TypeError` when the missense matrix's object ids are `None`. -/
def calculate_missense_features (st : FX) (featcat_id : String) :
    Except (String × FX) FX :=
  if (st.fm_protein.object_ids.getD []).isEmpty then
    Except.error ("AssertionError", st)
  else
    match parseFeatcatId featcat_id with
    | Except.error e => Except.error (e, st)
    | Except.ok (fcId, params) =>
      match List.lookup fcId st.mutCats with
      | none => Except.error ("KeyError: " ++ fcId, st)
      | some cat =>
        if params.length ≠ cat.paramCount then
          Except.error ("AssertionError", st)
        else
          let featIds := cat.describeIds.map (fun i => featcat_id ++ "_" ++ i)
          match st.fm_missense.object_ids with
          | none =>
            Except.error ("TypeError: object of type NoneType has no len()", st)
          | some mids =>
            let M : NPMat := ⟨mids.length, featIds.length,
                              (List.range mids.length).map cat.compute⟩
            match add_features st.fm_missense featIds M (some cat.describeNames) with
            | Except.error (m, fm1) => Except.error (m, { st with fm_missense := fm1 })
            | Except.ok fm1 => Except.ok { st with fm_missense := fm1 }

/-!
Helper lemmas shared by the claim theorems.
-/

/-- The length test of the source (`len(l) == len(set(l))`) detects exactly
duplicate-freeness. -/
theorem length_eq_dedup_length_iff {l : List String} :
    l.length = l.dedup.length ↔ l.Nodup := by
  constructor
  · intro h
    have hd : l.dedup = l := (List.dedup_sublist l).eq_of_length h.symm
    exact List.dedup_eq_self.mp hd
  · intro h
    rw [List.dedup_eq_self.mpr h]

/-- A failing `_check_features` raises before any state is touched. -/
theorem check_features_error_of_violation
    (s : FM) (obj : List String) (fids : List String) (M : NPMat)
    (hobj : s.object_ids = some obj)
    (hviol : ¬ fids.Nodup ∨
      (∃ existing, s.feature_ids = some existing ∧ ∃ f ∈ fids, f ∈ existing) ∨
      M.nrows ≠ obj.length ∨ M.ncols ≠ fids.length) :
    ∃ e, _check_features s fids M = Except.error e := by
  unfold _check_features
  simp only [hobj]
  split_ifs with h1 h2 h3 h4
  · exact ⟨_, rfl⟩
  · exact ⟨_, rfl⟩
  · exact ⟨_, rfl⟩
  · exact ⟨_, rfl⟩
  · exfalso
    rcases hviol with hv | ⟨ex, hex, f, hf1, hf2⟩ | hv | hv
    · exact hv (length_eq_dedup_length_iff.mp (not_not.mp (by simpa using h1)))
    · apply h2
      rw [hex]
      simp only [List.any_eq_true, decide_eq_true_eq]
      exact ⟨f, hf1, hf2⟩
    · exact hv (not_not.mp (by simpa using h3))
    · exact hv (not_not.mp (by simpa using h4))

/-- C1: For every feature matrix state with bound objects and every
`add_features(feature_ids, matrix, names)` call violating any of the four
validations (duplicate ids within the block, collision with already stored
ids, row count different from the bound object count, column count different
from the id count), the call raises and the resulting error carries exactly
the unmodified prior state: stored feature ids, feature matrix and feature
names are left as they were. -/
theorem add_features_invalid_raises_and_preserves_state
    (s : FM) (obj : List String) (fids : List String) (M : NPMat)
    (names : Option (List String))
    (hobj : s.object_ids = some obj)
    (hviol : ¬ fids.Nodup ∨
      (∃ existing, s.feature_ids = some existing ∧ ∃ f ∈ fids, f ∈ existing) ∨
      M.nrows ≠ obj.length ∨ M.ncols ≠ fids.length) :
    ∃ msg, add_features s fids M names = Except.error (msg, s) := by
  obtain ⟨e, he⟩ := check_features_error_of_violation s obj fids M hobj hviol
  refine ⟨e, ?_⟩
  unfold add_features
  rw [he]

/-- Witness for C1 at a concrete input: a duplicated id block is rejected
and the error carries the untouched state. -/
theorem add_features_invalid_witness :
    ∃ msg, add_features ⟨some ["p1"], none, none, none, none⟩ ["a", "a"]
        ⟨1, 2, [[1, 2]]⟩ none =
      Except.error (msg, ⟨some ["p1"], none, none, none, none⟩) :=
  add_features_invalid_raises_and_preserves_state
    ⟨some ["p1"], none, none, none, none⟩ ["p1"] ["a", "a"] ⟨1, 2, [[1, 2]]⟩
    none rfl (Or.inl (by decide))

/-- In the default labeling dict `dict(zip(ids, [0] * len(ids)))`, every
bound object id looks up to label `0`. -/
theorem lookup_const_zero (o : String) (ids : List String) (h : o ∈ ids) :
    List.lookup o (ids.map (fun i => (i, (0 : ℤ)))) = some 0 := by
  induction ids with
  | nil => simp at h
  | cons a as ih =>
    rcases List.mem_cons.mp h with rfl | hmem
    · simp [List.lookup]
    · by_cases hoa : o = a
      · subst hoa; simp [List.lookup]
      · have hba : (o == a) = false := beq_eq_false_iff_ne.mpr hoa
        simp only [List.map_cons, List.lookup_cons, hba]
        exact ih hmem

/-- No object id is missing from the default labeling dict. -/
theorem filter_lookup_none_nil (ids : List String) :
    ids.filter
      (fun o => (List.lookup o (ids.map (fun i => (i, (0 : ℤ))))).isNone) = [] := by
  rw [List.filter_eq_nil_iff]
  intro o ho
  rw [lookup_const_zero o ids ho]
  simp

/-- The labels built from the default labeling dict are all zero. -/
theorem labels_const_zero (ids : List String) :
    ids.map (fun o => (List.lookup o (ids.map (fun i => (i, (0 : ℤ))))).getD 0) =
      ids.map (fun _ => (0 : ℤ)) := by
  apply List.map_congr_left
  intro o ho
  rw [lookup_const_zero o ids ho]
  rfl

/-- `max` of an all-zero label list is zero. -/
theorem foldl_max_zeros (ls : List ℤ) (h : ∀ x ∈ ls, x = 0) :
    ls.foldl max (0 : ℤ) = 0 := by
  induction ls with
  | nil => rfl
  | cons a as ih =>
    have ha := h a (List.mem_cons_self a as)
    simp only [List.foldl_cons, ha, max_self]
    exact ih (fun x hx => h x (List.mem_cons_of_mem _ hx))

/-- Binding a non-empty duplicate-free id list to an unbound matrix
succeeds (the default `one_class` labeling is installed along the way). -/
theorem set_object_ids_success (s : FM) (hnone : s.object_ids = none)
    (ids : List String) (hne : ids ≠ []) (hnd : ids.Nodup) :
    ∃ s', set_object_ids s ids = Except.ok s' := by
  cases ids with
  | nil => exact absurd rfl hne
  | cons a as =>
    unfold set_object_ids
    rw [if_neg (not_not_intro hnone),
      if_neg (not_not_intro (length_eq_dedup_length_iff.mpr hnd))]
    unfold add_labels
    simp only [set_labels, filter_lookup_none_nil, labels_const_zero]
    rw [if_neg (fun h => h rfl)]
    simp only [List.map_cons, set_class_names]
    rw [foldl_max_zeros (as.map fun _ => (0 : ℤ)) (by simp)]
    rw [if_neg (not_not_intro (by decide))]
    simp [add_labeling]

/-- C6: `set_object_ids` fails when the objects are already bound, fails on a
duplicated id list, and in the duplicate case the error carries the state
with the object set still unset, so a later call with unique (non-empty) ids
succeeds. -/
theorem set_object_ids_immutable_and_nodup (s : FM) (ids : List String) :
    (s.object_ids ≠ none →
       set_object_ids s ids = Except.error ("Object ids are allready set.", s)) ∧
    (s.object_ids = none → ¬ ids.Nodup →
       set_object_ids s ids =
         Except.error ("There are multiple objects with the same id.", s) ∧
       ∀ ids2, ids2 ≠ [] → ids2.Nodup →
         ∃ s', set_object_ids s ids2 = Except.ok s') := by
  constructor
  · intro h
    unfold set_object_ids
    rw [if_pos h]
  · intro hnone hnd
    refine ⟨?_, fun ids2 hne hnd2 => set_object_ids_success s hnone ids2 hne hnd2⟩
    unfold set_object_ids
    rw [if_neg (not_not_intro hnone)]
    rw [if_pos (fun h => hnd (length_eq_dedup_length_iff.mp h))]

/-- Witness for C6 at concrete inputs: a bound matrix rejects a rebind; an
unbound matrix rejects `["x", "x"]` untouched and then accepts `["x"]`. -/
theorem set_object_ids_immutable_witness :
    set_object_ids ⟨some ["p1"], none, none, none, none⟩ ["q"] =
      Except.error ("Object ids are allready set.", ⟨some ["p1"], none, none, none, none⟩) ∧
    set_object_ids FM.init ["x", "x"] =
      Except.error ("There are multiple objects with the same id.", FM.init) ∧
    ∃ s', set_object_ids FM.init ["x"] = Except.ok s' :=
  ⟨(set_object_ids_immutable_and_nodup ⟨some ["p1"], none, none, none, none⟩ ["q"]).1
      (by decide),
   ((set_object_ids_immutable_and_nodup FM.init ["x", "x"]).2 rfl (by decide)).1,
   ((set_object_ids_immutable_and_nodup FM.init ["x", "x"]).2 rfl (by decide)).2
      ["x"] (by decide) (by decide)⟩

/-- Frame facts about `add_features`: a successful call only appends to the
feature id list (leaving objects and labelings alone), and every failing
call leaves objects and labelings alone as well. -/
theorem add_features_result_frame (s : FM) (fids : List String) (M : NPMat)
    (names : Option (List String)) :
    (∀ s', add_features s fids M names = Except.ok s' →
       s'.object_ids = s.object_ids ∧ s'.labeling_dict = s.labeling_dict ∧
       s'.feature_ids = some (s.feature_ids.getD [] ++ fids)) ∧
    (∀ m s'', add_features s fids M names = Except.error (m, s'') →
       s''.object_ids = s.object_ids ∧ s''.labeling_dict = s.labeling_dict) := by
  constructor
  · intro s' h
    unfold add_features at h
    split at h
    · exact Except.noConfusion h
    · split at h
      · split at h
        · exact Except.noConfusion h
        · unfold addFeatureNames at h
          split at h
          · exact Except.noConfusion h
          · injection h with h1
            subst h1
            exact ⟨rfl, rfl, rfl⟩
      · rename_i hcond
        unfold addFeatureNames at h
        split at h
        · exact Except.noConfusion h
        · injection h with h1
          subst h1
          have hnil : s.feature_ids.getD [] = [] := by
            simpa using hcond
          simp [hnil]
  · intro m s'' h
    unfold add_features at h
    split at h
    · injection h with h1
      injection h1 with h2 h3
      subst h3
      exact ⟨rfl, rfl⟩
    · split at h
      · split at h
        · injection h with h1
          injection h1 with h2 h3
          subst h3
          exact ⟨rfl, rfl⟩
        · unfold addFeatureNames at h
          split at h
          · injection h with h1
            injection h1 with h2 h3
            subst h3
            exact ⟨rfl, rfl⟩
          · exact Except.noConfusion h
      · unfold addFeatureNames at h
        split at h
        · injection h with h1
          injection h1 with h2 h3
          subst h3
          exact ⟨rfl, rfl⟩
        · exact Except.noConfusion h

/-- C8: `merge` fails with a ValueError whenever the two object id sequences
are not identical (order included), the error carrying the untouched
receiver; on success the resulting feature id list is the receiver's ids
followed by the other matrix's ids, and the receiver's object ids and
labelings are unaltered in every outcome. -/
theorem merge_requires_identical_objects (s t : FM) :
    (s.object_ids ≠ t.object_ids →
       merge s t =
         Except.error ("Object of the two feature matrices do not correspond.", s)) ∧
    (∀ s', merge s t = Except.ok s' →
       s'.feature_ids = some (s.feature_ids.getD [] ++ t.feature_ids.getD []) ∧
       s'.object_ids = s.object_ids ∧ s'.labeling_dict = s.labeling_dict) ∧
    (∀ m s'', merge s t = Except.error (m, s'') →
       s''.object_ids = s.object_ids ∧ s''.labeling_dict = s.labeling_dict) := by
  refine ⟨?_, ?_, ?_⟩
  · intro h
    unfold merge
    rw [if_pos h]
  · intro s' h
    unfold merge at h
    split at h
    · exact Except.noConfusion h
    · split at h
      · rename_i fids M hfi hfm
        obtain ⟨h1, h2, h3⟩ := (add_features_result_frame s fids M none).1 s' h
        rw [hfi, Option.getD_some]
        exact ⟨h3, h1, h2⟩
      · exact Except.noConfusion h
      · split at h
        · exact Except.noConfusion h
        · split at h
          · exact Except.noConfusion h
          · exact Except.noConfusion h
  · intro m s'' h
    unfold merge at h
    split at h
    · injection h with h1
      injection h1 with h2 h3
      subst h3
      exact ⟨rfl, rfl⟩
    · split at h
      · rename_i fids M hfi hfm
        exact (add_features_result_frame s fids M none).2 m s'' h
      · injection h with h1
        injection h1 with h2 h3
        subst h3
        exact ⟨rfl, rfl⟩
      · split at h
        · injection h with h1
          injection h1 with h2 h3
          subst h3
          exact ⟨rfl, rfl⟩
        · split at h
          · injection h with h1
            injection h1 with h2 h3
            subst h3
            exact ⟨rfl, rfl⟩
          · injection h with h1
            injection h1 with h2 h3
            subst h3
            exact ⟨rfl, rfl⟩

/-- A one-object matrix holding the single feature block `f`. -/
def mergeW1 : FM :=
  ⟨some ["p1"], some ["f"], some [("f", "f")], some ⟨1, 1, [[1]]⟩, none⟩

/-- A matrix with the same object as `mergeW1` and the feature block `g`. -/
def mergeW2 : FM :=
  ⟨some ["p1"], some ["g"], some [("g", "g")], some ⟨1, 1, [[2]]⟩, none⟩

/-- A matrix whose object id sequence differs from `mergeW1`. -/
def mergeW3 : FM := ⟨some ["p2"], none, none, none, none⟩

/-- The result of merging `mergeW2` into `mergeW1`. -/
def mergeW12 : FM :=
  ⟨some ["p1"], some ["f", "g"], some [("f", "f"), ("g", "g")],
   some ⟨1, 2, [[1, 2]]⟩, none⟩

/-- Witness for C8 at concrete inputs: mismatched objects fail with the
receiver untouched; identical objects concatenate the feature id lists. -/
theorem merge_requires_identical_objects_witness :
    merge mergeW1 mergeW3 =
      Except.error ("Object of the two feature matrices do not correspond.", mergeW1) ∧
    (mergeW12.feature_ids =
       some (mergeW1.feature_ids.getD [] ++ mergeW2.feature_ids.getD []) ∧
     mergeW12.object_ids = mergeW1.object_ids ∧
     mergeW12.labeling_dict = mergeW1.labeling_dict) :=
  ⟨(merge_requires_identical_objects mergeW1 mergeW3).1 (by decide),
   (merge_requires_identical_objects mergeW1 mergeW2).2.1 mergeW12 (by rfl)⟩

/-- A matrix with one bound object and no features yet. -/
def cusW0 : FM := ⟨some ["p1"], none, none, none, none⟩

/-- A 1-by-1 custom feature block. -/
def cusM : NPMat := ⟨1, 1, [[7]]⟩

/-- The state after the first successful `add_custom_features` call. -/
def cusW1 : FM :=
  ⟨some ["p1"], some ["cus0_0"],
   some [("cus0_0", "Custom feature vector 0 - 0")], some ⟨1, 1, [[7]]⟩, none⟩

/-- C5 evaluated at the failing input: the first `add_custom_features` call
on a matrix without features generates block `cus0` (feature id `cus0_0`),
but the second call raises `TypeError` instead of generating `cus1`: the
source computes `new_cust_feat_i` as a slice of the sorted list of custom
feature id lists — a list, not an integer — and feeds it to the `%i`
format specifier (it also never converts to `int` or adds one). -/
theorem add_custom_features_second_call_type_error :
    add_custom_features cusW0 cusM = Except.ok cusW1 ∧
    add_custom_features cusW1 cusM =
      Except.error ("TypeError: %i format: a number is required, not list", cusW1) :=
  ⟨rfl, rfl⟩

/-- A one-category registry entry with no parameters. -/
def fxCat : FeatCat := ⟨0, ["A"], ["amino acid comp A"], fun _ => [0]⟩

/-- A `FeatureExtraction` state whose protein matrix is bound but whose
missense matrix's object ids are still unbound (`None`). -/
def fxBoth : FX :=
  ⟨⟨some ["p1"], none, none, none, none⟩, FM.init,
   [("aac", fxCat)], [("aac", fxCat)]⟩

/-- Counterexample to C9 as stated: with the mutation feature matrix's object
ids unbound (and the protein matrix bound), `calculate_missense_features`
does not fail with an AssertionError-class precondition violation — its
assert reads `self.fm_protein.object_ids` and passes, and the call dies later
with `TypeError` at `len(self.fm_missense.object_ids)`. -/
theorem calculate_missense_unbound_counterexample :
    calculate_missense_features fxBoth "aac" =
      Except.error ("TypeError: object of type NoneType has no len()", fxBoth) ∧
    "TypeError: object of type NoneType has no len()" ≠ "AssertionError" :=
  ⟨rfl, by decide⟩

/-- C9 amended: both calculate functions assert that the PROTEIN feature
matrix's object ids are bound and raise `AssertionError` leaving the state
untouched otherwise; when the missense matrix's object ids are unbound,
`calculate_missense_features` still fails (with whatever error its path
reaches first, `TypeError` at the latest) and the error always carries the
state unchanged, so no features are appended. -/
theorem calculate_features_precondition_asserts (st : FX) (fid : String) :
    ((st.fm_protein.object_ids.getD []).isEmpty = true →
       calculate_protein_features st fid = Except.error ("AssertionError", st) ∧
       calculate_missense_features st fid = Except.error ("AssertionError", st)) ∧
    (st.fm_missense.object_ids = none →
       ∃ m, calculate_missense_features st fid = Except.error (m, st)) := by
  constructor
  · intro h
    constructor
    · unfold calculate_protein_features
      rw [if_pos h]
    · unfold calculate_missense_features
      rw [if_pos h]
  · intro hnone
    unfold calculate_missense_features
    by_cases h1 : (st.fm_protein.object_ids.getD []).isEmpty = true
    · rw [if_pos h1]
      exact ⟨_, rfl⟩
    · rw [if_neg h1]
      cases hp : parseFeatcatId fid with
      | error e =>
        simp only [hp]
        exact ⟨_, rfl⟩
      | ok pr =>
        obtain ⟨fcId, params⟩ := pr
        simp only [hp]
        cases hl : List.lookup fcId st.mutCats with
        | none =>
          simp only [hl]
          exact ⟨_, rfl⟩
        | some cat =>
          simp only [hl]
          by_cases h2 : params.length ≠ cat.paramCount
          · rw [if_pos h2]
            exact ⟨_, rfl⟩
          · rw [if_neg h2]
            simp only [hnone]
            exact ⟨_, rfl⟩

/-- A `FeatureExtraction` state with both matrices unbound. -/
def fxUnbound : FX := ⟨FM.init, FM.init, [("aac", fxCat)], [("aac", fxCat)]⟩

/-- Witness for the amended C9 at concrete inputs. -/
theorem calculate_features_precondition_witness :
    (calculate_protein_features fxUnbound "aac" =
       Except.error ("AssertionError", fxUnbound) ∧
     calculate_missense_features fxUnbound "aac" =
       Except.error ("AssertionError", fxUnbound)) ∧
    ∃ m, calculate_missense_features fxBoth "aac" = Except.error (m, fxBoth) :=
  ⟨(calculate_features_precondition_asserts fxUnbound "aac").1 (by rfl),
   (calculate_features_precondition_asserts fxBoth "aac").2 rfl⟩

/-- Overwriting map inside `dictAppend`: looking up the touched key. -/
theorem lookup_map_overwrite (k : String) (v : ℕ) :
    ∀ d : List (String × List ℕ), d.any (fun p => p.1 == k) = true →
    List.lookup k (d.map (fun p => if p.1 == k then (p.1, p.2 ++ [v]) else p)) =
      some ((List.lookup k d).getD [] ++ [v]) := by
  intro d
  induction d with
  | nil => intro h; simp at h
  | cons p d' ih =>
    obtain ⟨pk, pv⟩ := p
    intro h
    by_cases hpk : (pk == k) = true
    · have hk : pk = k := by simpa using hpk
      subst hk
      simp [List.lookup_cons]
    · have hd' : d'.any (fun p => p.1 == k) = true := by
        simp only [List.any_cons, hpk, Bool.false_or] at h
        exact h
      have hne : pk ≠ k := by simpa using hpk
      have hkk : (k == pk) = false :=
        beq_eq_false_iff_ne.mpr (fun he => hne he.symm)
      simp only [List.map_cons, if_neg hpk, List.lookup_cons, hkk]
      exact ih hd'

/-- If no entry of an association list carries the key, lookup fails. -/
theorem lookup_none_of_any_false (k : String) :
    ∀ d : List (String × List ℕ), d.any (fun p => p.1 == k) = false →
    List.lookup k d = none := by
  intro d
  induction d with
  | nil => intro _; rfl
  | cons p d' ih =>
    obtain ⟨pk, pv⟩ := p
    intro h
    simp only [List.any_cons, Bool.or_eq_false_iff] at h
    have hne : pk ≠ k := by simpa using h.1
    have hkk : (k == pk) = false :=
      beq_eq_false_iff_ne.mpr (fun he => hne he.symm)
    simp only [List.lookup_cons, hkk]
    exact ih h.2

/-- Appending a fresh key at the end of the dict: looking it up. -/
theorem lookup_append_single (k : String) (v : ℕ) :
    ∀ d : List (String × List ℕ), d.any (fun p => p.1 == k) = false →
    List.lookup k (d ++ [(k, [v])]) = some [v] := by
  intro d
  induction d with
  | nil => simp [List.lookup_cons]
  | cons p d' ih =>
    obtain ⟨pk, pv⟩ := p
    intro h
    simp only [List.any_cons, Bool.or_eq_false_iff] at h
    have hne : pk ≠ k := by simpa using h.1
    have hkk : (k == pk) = false :=
      beq_eq_false_iff_ne.mpr (fun he => hne he.symm)
    simp only [List.cons_append, List.lookup_cons, hkk]
    exact ih h.2

/-- Appending a fresh key does not change other lookups. -/
theorem lookup_ne_append_single (k k' : String) (v : ℕ) (h : k' ≠ k) :
    ∀ d : List (String × List ℕ),
    List.lookup k' (d ++ [(k, [v])]) = List.lookup k' d := by
  intro d
  induction d with
  | nil =>
    simp only [List.nil_append, List.lookup_cons, beq_eq_false_iff_ne.mpr h]
  | cons p d' ih =>
    obtain ⟨pk, pv⟩ := p
    simp only [List.cons_append, List.lookup_cons]
    cases hkk : (k' == pk) with
    | true => rfl
    | false => exact ih

/-- Overwriting the bucket of key `k` does not change other lookups. -/
theorem lookup_ne_map_overwrite (k k' : String) (v : ℕ) (h : k' ≠ k) :
    ∀ d : List (String × List ℕ),
    List.lookup k' (d.map (fun p => if p.1 == k then (p.1, p.2 ++ [v]) else p)) =
      List.lookup k' d := by
  intro d
  induction d with
  | nil => rfl
  | cons p d' ih =>
    obtain ⟨pk, pv⟩ := p
    by_cases hpk : (pk == k) = true
    · have hk : pk = k := by simpa using hpk
      have hkk : (k' == pk) = false :=
        beq_eq_false_iff_ne.mpr (by rw [hk]; exact h)
      simp only [List.map_cons, if_pos hpk, List.lookup_cons, hkk]
      exact ih
    · simp only [List.map_cons, if_neg hpk, List.lookup_cons]
      cases hkk : (k' == pk) with
      | true => rfl
      | false => exact ih

/-- Looking up the appended key after `dictAppend`. -/
theorem lookup_dictAppend_same (d : List (String × List ℕ)) (k : String) (v : ℕ) :
    List.lookup k (dictAppend d k v) = some ((List.lookup k d).getD [] ++ [v]) := by
  unfold dictAppend
  by_cases h : d.any (fun p => p.1 == k) = true
  · rw [if_pos h]
    exact lookup_map_overwrite k v d h
  · have hfalse : d.any (fun p => p.1 == k) = false := by
      cases hb : d.any (fun p => p.1 == k) with
      | false => rfl
      | true => exact absurd hb h
    rw [if_neg h, lookup_none_of_any_false k d hfalse,
      lookup_append_single k v d hfalse]
    rfl

/-- `dictAppend` leaves the buckets of other keys alone. -/
theorem lookup_dictAppend_ne (d : List (String × List ℕ)) (k k' : String)
    (v : ℕ) (h : k' ≠ k) :
    List.lookup k' (dictAppend d k v) = List.lookup k' d := by
  unfold dictAppend
  by_cases hany : d.any (fun p => p.1 == k) = true
  · rw [if_pos hany]
    exact lookup_ne_map_overwrite k k' v h d
  · rw [if_neg hany]
    exact lookup_ne_append_single k k' v h d

/-- The row indices of class `c`: the positions `i` whose label resolves to
class name `c`, in ascending order. -/
def classIdxList (cn : List String) (ls : List ℤ) (c : String) : List ℕ :=
  (List.range ls.length).filter (fun i => pyListGet cn (ls.getD i 0) == some c)

/-- Unfolding the fold inside `buildObjIdxDict` bucket by bucket. -/
theorem lookup_buildObjIdxDict_fold (cn : List String) (ls : List ℤ) (c : String) :
    ∀ (L : List ℕ) (d : List (String × List ℕ)),
      List.lookup c (L.foldl (fun d i =>
          match pyListGet cn (ls.getD i 0) with
          | some cl => dictAppend d cl i
          | none => d) d) =
        (match List.lookup c d,
               L.filter (fun i => pyListGet cn (ls.getD i 0) == some c) with
         | none, [] => none
         | o, fl => some (o.getD [] ++ fl)) := by
  intro L
  induction L with
  | nil =>
    intro d
    cases h : List.lookup c d <;> simp [h]
  | cons i L' ih =>
    intro d
    simp only [List.foldl_cons, List.filter_cons]
    cases hcl : pyListGet cn (ls.getD i 0) with
    | none =>
      simp only [hcl]
      rw [ih d]
      rfl
    | some cl =>
      by_cases hc : cl = c
      · subst hc
        simp only [hcl, beq_self_eq_true, if_pos rfl]
        rw [ih (dictAppend d cl i), lookup_dictAppend_same]
        cases h2 : List.lookup cl d <;>
          cases h3 : L'.filter (fun i => pyListGet cn (ls.getD i 0) == some cl) <;>
            simp [h2, h3]
      · have hbeq : ((some cl : Option String) == some c) = false := by
          simp [hc]
        simp only [hcl, hbeq, Bool.false_eq_true, if_false]
        rw [ih (dictAppend d cl i),
          lookup_dictAppend_ne d cl c i (fun hh => hc hh.symm)]


/-- Characterization of the reverse map built by `set_labels`: the bucket of
class `c` is exactly the ascending list of row indices labelled `c`. -/
theorem lookup_buildObjIdxDict (cn : List String) (ls : List ℤ) (c : String) :
    List.lookup c (buildObjIdxDict cn ls) =
      if classIdxList cn ls c = [] then none else some (classIdxList cn ls c) := by
  unfold buildObjIdxDict classIdxList
  rw [lookup_buildObjIdxDict_fold]
  cases h : (List.range ls.length).filter
      (fun i => pyListGet cn (ls.getD i 0) == some c) with
  | nil => simp [h, List.lookup]
  | cons a t => simp [h, List.lookup]

/-- The per-class row index lists are strictly ascending. -/
theorem classIdxList_sorted (cn : List String) (ls : List ℤ) (c : String) :
    (classIdxList cn ls c).Sorted (· < ·) :=
  (List.pairwise_lt_range _).filter _

/-- The per-class row index lists have no duplicates. -/
theorem classIdxList_nodup (cn : List String) (ls : List ℤ) (c : String) :
    (classIdxList cn ls c).Nodup :=
  (classIdxList_sorted cn ls c).imp (fun h => ne_of_lt h)

/-- Distinct classes own disjoint row index lists. -/
theorem classIdxList_disjoint (cn : List String) (ls : List ℤ)
    {c c' : String} (h : c ≠ c') :
    List.Disjoint (classIdxList cn ls c) (classIdxList cn ls c') := by
  intro a ha ha'
  simp only [classIdxList, List.mem_filter] at ha ha'
  have h1 : pyListGet cn (ls.getD a 0) = some c := by simpa using ha.2
  have h2 : pyListGet cn (ls.getD a 0) = some c' := by simpa using ha'.2
  rw [h1] at h2
  exact h (Option.some.inj h2)

/-- `pySort` sorts ascending. -/
theorem pySort_sorted (l : List ℕ) : (pySort l).Sorted (· ≤ ·) :=
  List.sorted_insertionSort _ l

/-- `pySort` permutes its input. -/
theorem pySort_perm (l : List ℕ) : (pySort l).Perm l :=
  List.perm_insertionSort _ l

/-- `pySort` depends only on the multiset of its input. -/
theorem pySort_eq_of_perm {l₁ l₂ : List ℕ} (h : l₁.Perm l₂) :
    pySort l₁ = pySort l₂ :=
  List.eq_of_perm_of_sorted
    ((pySort_perm l₁).trans (h.trans (pySort_perm l₂).symm))
    (pySort_sorted l₁) (pySort_sorted l₂)

/-- When every requested class is a key of the reverse map, the `mapM` over
the per-class buckets succeeds with the mapped bucket list. -/
theorem mapM_lookup_ok (dict : List (String × List ℕ)) :
    ∀ cs : List String, (∀ c ∈ cs, (List.lookup c dict).isSome) →
      (cs.mapM (fun c =>
        match List.lookup c dict with
        | some l => Except.ok l
        | none => (Except.error ("KeyError: " ++ c) : Except String (List ℕ)))) =
      Except.ok (cs.map (fun c => (List.lookup c dict).getD [])) := by
  intro cs
  induction cs with
  | nil => intro _; rfl
  | cons c cs' ih =>
    intro h
    have hc := h c (List.mem_cons_self _ _)
    rw [List.mapM_cons, ih (fun x hx => h x (List.mem_cons_of_mem _ hx))]
    cases hl : List.lookup c dict with
    | none => rw [hl] at hc; simp at hc
    | some l =>
      rw [List.map_cons]
      simp only [hl]
      rfl

/-- C7 amended: for a labeling whose reverse map is the one `set_labels`
builds, and duplicate-free class ids each labelling at least one object,
`object_indices` returns the class members' row positions sorted ascending
and duplicate-free, independently of the order of `class_ids` (in particular
not grouped by class). -/
theorem object_indices_sorted_unordered
    (s : FM) (lname : String) (L : Labeling) (cids : List String)
    (hL : labelingOf s lname = Except.ok L)
    (hwf : L.object_indices_per_class = buildObjIdxDict L.class_names L.labels)
    (hnd : cids.Nodup)
    (hpres : ∀ c ∈ cids, classIdxList L.class_names L.labels c ≠ []) :
    ∃ r, object_indices s lname cids = Except.ok r ∧
      r.Sorted (· ≤ ·) ∧ r.Nodup ∧
      ∀ cids', cids'.Perm cids → object_indices s lname cids' = Except.ok r := by
  have hsome : ∀ c ∈ cids, (List.lookup c L.object_indices_per_class).isSome := by
    intro c hc
    rw [hwf, lookup_buildObjIdxDict, if_neg (hpres c hc)]
    rfl
  have hget : ∀ c ∈ cids,
      (List.lookup c L.object_indices_per_class).getD [] =
        classIdxList L.class_names L.labels c := by
    intro c hc
    rw [hwf, lookup_buildObjIdxDict, if_neg (hpres c hc)]
    rfl
  have heval : ∀ cs : List String,
      (∀ c ∈ cs, (List.lookup c L.object_indices_per_class).isSome) →
      object_indices s lname cs =
        Except.ok (pySort ((cs.map
          (fun c => (List.lookup c L.object_indices_per_class).getD [])).flatten)) := by
    intro cs hs
    unfold object_indices
    simp only [hL]
    rw [mapM_lookup_ok _ cs hs]
  refine ⟨_, heval cids hsome, pySort_sorted _, ?_, ?_⟩
  · have hmapeq : cids.map
        (fun c => (List.lookup c L.object_indices_per_class).getD []) =
        cids.map (fun c => classIdxList L.class_names L.labels c) :=
      List.map_congr_left hget
    rw [hmapeq]
    apply (pySort_perm _).symm.nodup
    apply List.nodup_flatten.mpr
    constructor
    · intro l hl
      obtain ⟨c, _, rfl⟩ := List.mem_map.mp hl
      exact classIdxList_nodup _ _ _
    · exact List.pairwise_map.mpr
        (hnd.imp (fun hab => classIdxList_disjoint _ _ hab))
  · intro cids' hp
    have hsome' : ∀ c ∈ cids', (List.lookup c L.object_indices_per_class).isSome :=
      fun c hc => hsome c (hp.subset hc)
    rw [heval cids' hsome']
    exact congrArg Except.ok (pySort_eq_of_perm
      (((hp.map (fun c => (List.lookup c L.object_indices_per_class).getD []))).flatten))

/-- A one-object labeling with the single class `A`. -/
def c7L : Labeling := ⟨"L", [0], ["A"], [("A", [0])]⟩

/-- A matrix carrying the labeling `c7L`. -/
def c7fm : FM := ⟨some ["p1"], none, none, none, some [("L", c7L)]⟩

/-- Counterexample to C7 as stated: with the repeated class id list
`['A', 'A']`, `object_indices` returns the position `0` twice — the result
is not de-duplicated. -/
theorem object_indices_duplicate_class_counterexample :
    object_indices c7fm "L" ["A", "A"] = Except.ok [0, 0] ∧
    ([0, 0] : List ℕ) ≠ [0] :=
  ⟨rfl, by decide⟩

/-- A three-object labeling over classes `A`, `B` with the reverse map built
by `set_labels`. -/
def c7L2 : Labeling :=
  ⟨"lab", [0, 1, 0], ["A", "B"], buildObjIdxDict ["A", "B"] [0, 1, 0]⟩

/-- A matrix carrying the labeling `c7L2`. -/
def c7fm2 : FM := ⟨some ["p1", "p2", "p3"], none, none, none, some [("lab", c7L2)]⟩

/-- Witness for the amended C7 at a concrete labeling. -/
theorem object_indices_sorted_unordered_witness :
    ∃ r, object_indices c7fm2 "lab" ["B", "A"] = Except.ok r ∧
      r.Sorted (· ≤ ·) ∧ r.Nodup ∧
      ∀ cids', cids'.Perm ["B", "A"] →
        object_indices c7fm2 "lab" cids' = Except.ok r :=
  object_indices_sorted_unordered c7fm2 "lab" c7L2 ["B", "A"] rfl rfl
    (by decide) (by decide)

/-- Inversion of a successful `get_dataset` call with explicitly requested
feature ids: every intermediate resolution succeeded and the dataset is
assembled from them exactly as in the source. -/
theorem get_dataset_ok_inv (s : FM) (fi : List String) (lno : Option String)
    (cio : Option (List String)) (std : Bool) (ds : Dataset)
    (hne : fi ≠ [])
    (h : get_dataset s (some fi) lno cio std = Except.ok ds) :
    ∃ L feat_is object_is class_is sl oids target,
      labelingOf s (gdName lno) = Except.ok L ∧
      feature_indices s fi = Except.ok feat_is ∧
      object_indices s (gdName lno)
        (if truthyO cio then cio.getD [] else L.class_names) = Except.ok object_is ∧
      class_indices s (gdName lno)
        (if truthyO cio then cio.getD [] else L.class_names) = Except.ok class_is ∧
      sliceE s feat_is object_is = Except.ok sl ∧
      s.object_ids = some oids ∧
      (object_is.map (fun i => L.labels.getD i 0)).mapM
        (fun t => match pyZipLookup class_is t with
          | some v => Except.ok (v : ℤ)
          | none => (Except.error "KeyError: target remap" : Except String ℤ)) =
        Except.ok target ∧
      ds = ⟨if std then standardize sl else sl,
            object_is.map (fun i => oids.getD i ""),
            feat_is.map (fun i => (s.feature_ids.getD []).getD i ""),
            target,
            class_is.map (fun i => L.class_names.getD i "")⟩ := by
  have htr : truthyO (some fi) = true := by
    simpa [truthyO] using hne
  unfold get_dataset at h
  split at h
  · exact Except.noConfusion h
  · rename_i L hL
    split at h
    · simp only [Option.getD_some] at h
      split at h
      · exact Except.noConfusion h
      · rename_i feat_is hfi
        split at h
        · exact Except.noConfusion h
        · rename_i object_is hoi
          split at h
          · exact Except.noConfusion h
          · rename_i class_is hci
            split at h
            · exact Except.noConfusion h
            · rename_i sl hsl
              split at h
              · exact Except.noConfusion h
              · rename_i oids hoid
                split at h
                · exact Except.noConfusion h
                · rename_i target htg
                  injection h with h1
                  exact ⟨L, feat_is, object_is, class_is, sl, oids, target,
                    hL, hfi, hoi, hci, hsl, hoid, htg, h1.symm⟩
    · rename_i hcond
      have h2 : truthyO (some fi) = false ∧ truthyO cio = false := by
        simpa using hcond
      rw [htr] at h2
      exact Bool.noConfusion h2.1
/-- When every requested feature id resolves, the `mapM` over
`feature_ids.index` succeeds with the mapped position list. -/
theorem mapM_indexOf_ok (all : List String) :
    ∀ fs : List String, (∀ f ∈ fs, f ∈ all) →
      (fs.mapM (fun f =>
        if f ∈ all then Except.ok (List.indexOf f all)
        else (Except.error ("ValueError: " ++ f ++ " is not in list") :
              Except String ℕ))) =
      Except.ok (fs.map (fun f => List.indexOf f all)) := by
  intro fs
  induction fs with
  | nil => intro _; rfl
  | cons f fs' ih =>
    intro h
    rw [List.mapM_cons, ih (fun x hx => h x (List.mem_cons_of_mem _ hx)),
      if_pos (h f (List.mem_cons_self _ _))]
    rfl

/-- Evaluation of `feature_indices` on resolvable ids. -/
theorem feature_indices_eval (s : FM) (all fids : List String)
    (hall : s.feature_ids = some all) (hmem : ∀ f ∈ fids, f ∈ all) :
    feature_indices s fids =
      Except.ok (pySort (fids.map (fun f => List.indexOf f all))) := by
  unfold feature_indices
  simp only [hall]
  rw [mapM_indexOf_ok all fids hmem]

/-- C10: for every list of resolvable feature ids, `feature_indices` returns
the column positions sorted ascending, independent of the input order, and
the feature id list of a successful `get_dataset(feat_ids=...)` call is the
stored ids read off at those sorted positions — i.e. it follows the stored
column order of the aggregate matrix, not the caller's listing order. -/
theorem feature_indices_sorted_and_dataset_order
    (s : FM) (all fids : List String)
    (hall : s.feature_ids = some all) (hmem : ∀ f ∈ fids, f ∈ all)
    (hne : fids ≠ []) :
    ∃ r, feature_indices s fids = Except.ok r ∧
      r.Sorted (· ≤ ·) ∧
      (∀ fids', fids'.Perm fids → feature_indices s fids' = Except.ok r) ∧
      (∀ lno cio std ds, get_dataset s (some fids) lno cio std = Except.ok ds →
         ds.feature_names = r.map (fun i => all.getD i "")) := by
  refine ⟨pySort (fids.map (fun f => List.indexOf f all)),
    feature_indices_eval s all fids hall hmem, pySort_sorted _, ?_, ?_⟩
  · intro fids' hp
    rw [feature_indices_eval s all fids' hall (fun f hf => hmem f (hp.subset hf))]
    exact congrArg Except.ok (pySort_eq_of_perm (hp.map _))
  · intro lno cio std ds h
    obtain ⟨L, feat_is, object_is, class_is, sl, oids, target,
      hL, hfi, hoi, hci, hsl, hoid, htg, hds⟩ :=
      get_dataset_ok_inv s fids lno cio std ds hne h
    rw [feature_indices_eval s all fids hall hmem] at hfi
    injection hfi with hfi'
    subst hfi'
    rw [hds]
    simp only [hall, Option.getD_some]

/-- A matrix with two stored features, used as the C10 witness input. -/
def c10fm : FM := ⟨some ["p1"], some ["f", "g"], none, none, none⟩

/-- Witness for C10 at a concrete input: the ids are requested in the order
`['g', 'f']` but resolve to the stored column order. -/
theorem feature_indices_sorted_and_dataset_order_witness :
    ∃ r, feature_indices c10fm ["g", "f"] = Except.ok r ∧
      r.Sorted (· ≤ ·) ∧
      (∀ fids', fids'.Perm ["g", "f"] →
        feature_indices c10fm fids' = Except.ok r) ∧
      (∀ lno cio std ds,
        get_dataset c10fm (some ["g", "f"]) lno cio std = Except.ok ds →
          ds.feature_names = r.map (fun i => ["f", "g"].getD i "")) :=
  feature_indices_sorted_and_dataset_order c10fm ["f", "g"] ["g", "f"] rfl
    (by decide) (by decide)

/-- `sorted` of a two-element list. -/
theorem pySort_pair (a b : ℕ) : pySort [a, b] = [min a b, max a b] := by
  by_cases h : a ≤ b
  · simp [pySort, List.insertionSort, List.orderedInsert, h,
      min_eq_left h, max_eq_right h]
  · have h' : b ≤ a := le_of_not_le h
    simp [pySort, List.insertionSort, List.orderedInsert, h,
      min_eq_right h', max_eq_left h']

/-- Evaluation of `object_indices` when every class is a key of the
reverse map. -/
theorem object_indices_eval (s : FM) (lname : String) (L : Labeling)
    (cs : List String)
    (hL : labelingOf s lname = Except.ok L)
    (hs : ∀ c ∈ cs, (List.lookup c L.object_indices_per_class).isSome) :
    object_indices s lname cs = Except.ok (pySort ((cs.map
      (fun c => (List.lookup c L.object_indices_per_class).getD [])).flatten)) := by
  unfold object_indices
  simp only [hL]
  rw [mapM_lookup_ok _ cs hs]

/-- Evaluation of `class_indices` on resolvable class ids. -/
theorem class_indices_eval (s : FM) (lname : String) (L : Labeling)
    (cs : List String)
    (hL : labelingOf s lname = Except.ok L)
    (hmem : ∀ c ∈ cs, c ∈ L.class_names) :
    class_indices s lname cs =
      Except.ok (pySort (cs.map (fun c => List.indexOf c L.class_names))) := by
  unfold class_indices
  simp only [hL]
  rw [mapM_indexOf_ok L.class_names cs hmem]

/-- The target remap dict of `get_dataset` on a two-class index list. -/
theorem pyZipLookup_pair (a b : ℕ) (t : ℤ) :
    pyZipLookup [a, b] t = List.lookup t [((b : ℤ), 1), ((a : ℤ), 0)] := rfl

/-- Remapping the smaller of two distinct class indices yields `0`. -/
theorem pyZipLookup_pair_min {a b : ℕ} (h : a ≠ b) :
    pyZipLookup [a, b] (a : ℤ) = some 0 := by
  rw [pyZipLookup_pair]
  have hba : (((a : ℤ)) == ((b : ℤ))) = false :=
    beq_eq_false_iff_ne.mpr (by exact_mod_cast h)
  simp [List.lookup_cons, hba]

/-- Remapping the larger of the two class indices yields `1`. -/
theorem pyZipLookup_pair_max (a b : ℕ) :
    pyZipLookup [a, b] (b : ℤ) = some 1 := by
  rw [pyZipLookup_pair]
  simp [List.lookup_cons]

/-- When every target label is a key of the remap dict, the `mapM` over the
targets succeeds with the remapped list. -/
theorem mapM_remap_ok (class_is : List ℕ) :
    ∀ ts : List ℤ, (∀ t ∈ ts, (pyZipLookup class_is t).isSome) →
      ts.mapM (fun t => match pyZipLookup class_is t with
        | some v => Except.ok (v : ℤ)
        | none => (Except.error "KeyError: target remap" : Except String ℤ)) =
      Except.ok (ts.map (fun t => (((pyZipLookup class_is t).getD 0 : ℕ) : ℤ))) := by
  intro ts
  induction ts with
  | nil => intro _; rfl
  | cons t ts' ih =>
    intro h
    have hc := h t (List.mem_cons_self _ _)
    rw [List.mapM_cons, ih (fun x hx => h x (List.mem_cons_of_mem _ hx)),
      List.map_cons]
    cases hl : pyZipLookup class_is t with
    | none => rw [hl] at hc; simp at hc
    | some v =>
      simp only [hl]
      rfl

/-- Membership in the per-class row index list. -/
theorem mem_classIdxList {cn : List String} {ls : List ℤ} {c : String} {i : ℕ} :
    i ∈ classIdxList cn ls c ↔
      i < ls.length ∧ pyListGet cn (ls.getD i 0) = some c := by
  simp [classIdxList, List.mem_filter, List.mem_range]

/-- A valid label that resolves to class name `c` is the internal index of
`c` (first occurrence), provided class names are unique. -/
theorem label_eq_indexOf {cn : List String} {ls : List ℤ} {c : String} {i : ℕ}
    (hnd : cn.Nodup)
    (hlab : ∀ l ∈ ls, 0 ≤ l ∧ l.toNat < cn.length)
    (hi : i < ls.length)
    (hc : pyListGet cn (ls.getD i 0) = some c) :
    ls.getD i 0 = (List.indexOf c cn : ℕ) := by
  have hmem : ls.getD i 0 ∈ ls := by
    rw [List.getD_eq_getElem ls 0 hi]
    exact List.getElem_mem _
  obtain ⟨hge, hlt⟩ := hlab _ hmem
  rw [pyListGet, if_pos hge, List.get?_eq_getElem?,
    List.getElem?_eq_getElem hlt] at hc
  injection hc with hc'
  have hidx : List.indexOf c cn = (ls.getD i 0).toNat := by
    rw [← hc']
    exact List.indexOf_getElem hnd _ hlt
  rw [hidx, Int.toNat_of_nonneg hge]

/-- A two-object matrix with classes `A` (internal code 0) and `B` (code 1),
one feature column, used for the C2 counterexample. -/
def c2L : Labeling := ⟨"lab", [0, 1], ["A", "B"], buildObjIdxDict ["A", "B"] [0, 1]⟩

/-- The matrix carrying `c2L` and one stored feature. -/
def c2fm : FM :=
  ⟨some ["o1", "o2"], some ["f1"], none, some ⟨2, 1, [[10], [20]]⟩,
   some [("lab", c2L)]⟩

/-- Counterexample to C2 as stated: object `o1` has class `A` (code 0) and
`o2` has class `B` (code 1); `get_dataset` with `class_ids = ['B', 'A']`
returns targets `[0, 1]` — the `A` object gets 0 and the `B` object gets 1,
because the remap follows sorted internal class indices, not the
`class_ids` order.  The claim predicts targets `[1, 0]`. -/
theorem get_dataset_class_order_counterexample :
    (get_dataset c2fm (some ["f1"]) (some "lab") (some ["B", "A"]) false).map
        (fun d => d.target) = Except.ok [0, 1] ∧
    (Except.ok [0, 1] : Except String (List ℤ)) ≠ Except.ok [1, 0] :=
  ⟨rfl, fun h => absurd (Except.ok.inj h) (by decide)⟩

/-- C2 amended: for a feature matrix whose labeling has unique class names,
valid label codes and classes `A` and `B`, a successful
`get_dataset(class_ids=['B','A'])` call returns integer targets that follow
the SORTED internal class index order: an object's target is 0 exactly when
its label code is the smaller of the two internal class indices (and 1 when
it is the larger), independent of the order the class ids were listed and of
which class is `B`. -/
theorem get_dataset_targets_follow_sorted_class_index
    (s : FM) (L : Labeling) (lno : Option String) (fi : List String)
    (std : Bool) (ds : Dataset)
    (hL : labelingOf s (gdName lno) = Except.ok L)
    (hwf : L.object_indices_per_class = buildObjIdxDict L.class_names L.labels)
    (hndc : L.class_names.Nodup)
    (hA : "A" ∈ L.class_names) (hB : "B" ∈ L.class_names)
    (hlab : ∀ l ∈ L.labels, 0 ≤ l ∧ l.toNat < L.class_names.length)
    (hne : fi ≠ [])
    (h : get_dataset s (some fi) lno (some ["B", "A"]) std = Except.ok ds) :
    ∃ object_is,
      object_indices s (gdName lno) ["B", "A"] = Except.ok object_is ∧
      ds.target = object_is.map (fun i =>
        if L.labels.getD i 0 = ((min (List.indexOf "A" L.class_names)
            (List.indexOf "B" L.class_names) : ℕ) : ℤ) then 0 else 1) := by
  obtain ⟨L', feat_is, object_is, class_is, sl, oids, target,
    hL', hfi, hoi, hci, hsl, hoid, htg, hds⟩ :=
    get_dataset_ok_inv s fi lno (some ["B", "A"]) std ds hne h
  rw [hL] at hL'
  injection hL' with hLL
  subst hLL
  rw [show (if truthyO (some ["B", "A"]) = true
      then (some ["B", "A"] : Option (List String)).getD []
      else L.class_names) = ["B", "A"] from rfl] at hoi hci
  have hoi0 := hoi
  have hciEval := class_indices_eval s (gdName lno) L ["B", "A"] hL
    (fun c hc => by
      rcases (by simpa using hc : c = "B" ∨ c = "A") with rfl | rfl
      · exact hB
      · exact hA)
  rw [hciEval] at hci
  have hcis : class_is =
      pySort (["B", "A"].map (fun c => List.indexOf c L.class_names)) :=
    (Except.ok.inj hci).symm
  set iA := List.indexOf "A" L.class_names with hiA
  set iB := List.indexOf "B" L.class_names with hiB
  have hneAB : iA ≠ iB := by
    intro hEq
    have := (List.indexOf_inj hA hB).mp hEq
    exact absurd this (by decide)
  have hclass : class_is = [min iA iB, max iA iB] := by
    rw [hcis]
    simp only [List.map_cons, List.map_nil]
    rw [pySort_pair, min_comm, max_comm]
  have hmM : min iA iB ≠ max iA iB := by
    rcases le_total iA iB with hle | hle
    · rw [min_eq_left hle, max_eq_right hle]; exact hneAB
    · rw [min_eq_right hle, max_eq_left hle]
      exact fun hEq => hneAB hEq.symm
  unfold object_indices at hoi
  simp only [hL] at hoi
  split at hoi
  · exact Except.noConfusion hoi
  · rename_i lists hlists
    have hobj : object_is = pySort lists.flatten := (Except.ok.inj hoi).symm
    cases hlB : List.lookup "B" L.object_indices_per_class with
    | none =>
      rw [List.mapM_cons] at hlists
      simp only [hlB] at hlists
      exact Except.noConfusion hlists
    | some vB =>
      cases hlA : List.lookup "A" L.object_indices_per_class with
      | none =>
        rw [List.mapM_cons, List.mapM_cons] at hlists
        simp only [hlB, hlA] at hlists
        exact Except.noConfusion hlists
      | some vA =>
        have hsome2 : ∀ c ∈ ["B", "A"],
            (List.lookup c L.object_indices_per_class).isSome := by
          intro c hc
          rcases (by simpa using hc : c = "B" ∨ c = "A") with rfl | rfl
          · rw [hlB]; rfl
          · rw [hlA]; rfl
        rw [mapM_lookup_ok _ _ hsome2] at hlists
        have hlists' : lists = [vB, vA] := by
          have := (Except.ok.inj hlists).symm
          rw [this]
          simp only [List.map_cons, List.map_nil, hlB, hlA, Option.getD_some]
        have hvB : vB = classIdxList L.class_names L.labels "B" := by
          rw [hwf, lookup_buildObjIdxDict] at hlB
          by_cases hE : classIdxList L.class_names L.labels "B" = []
          · rw [if_pos hE] at hlB; exact Option.noConfusion hlB
          · rw [if_neg hE] at hlB; exact (Option.some.inj hlB).symm
        have hvA : vA = classIdxList L.class_names L.labels "A" := by
          rw [hwf, lookup_buildObjIdxDict] at hlA
          by_cases hE : classIdxList L.class_names L.labels "A" = []
          · rw [if_pos hE] at hlA; exact Option.noConfusion hlA
          · rw [if_neg hE] at hlA; exact (Option.some.inj hlA).symm
        have hmemlab : ∀ i ∈ object_is,
            L.labels.getD i 0 = (iA : ℤ) ∨ L.labels.getD i 0 = (iB : ℤ) := by
          intro i hi
          rw [hobj] at hi
          have hi' : i ∈ lists.flatten := (pySort_perm _).subset hi
          rw [hlists'] at hi'
          simp only [List.flatten_cons, List.flatten_nil, List.append_nil] at hi'
          rcases List.mem_append.mp hi' with hiB' | hiA'
          · rw [hvB] at hiB'
            obtain ⟨hilen, hget⟩ := mem_classIdxList.mp hiB'
            exact Or.inr (label_eq_indexOf hndc hlab hilen hget)
          · rw [hvA] at hiA'
            obtain ⟨hilen, hget⟩ := mem_classIdxList.mp hiA'
            exact Or.inl (label_eq_indexOf hndc hlab hilen hget)
        have hsetA : iA = min iA iB ∨ iA = max iA iB := by
          rcases le_total iA iB with hle | hle
          · exact Or.inl (min_eq_left hle).symm
          · exact Or.inr (max_eq_left hle).symm
        have hsetB : iB = min iA iB ∨ iB = max iA iB := by
          rcases le_total iA iB with hle | hle
          · exact Or.inr (max_eq_right hle).symm
          · exact Or.inl (min_eq_right hle).symm
        have hmm2 : ∀ i ∈ object_is,
            L.labels.getD i 0 = ((min iA iB : ℕ) : ℤ) ∨
            L.labels.getD i 0 = ((max iA iB : ℕ) : ℤ) := by
          intro i hi
          rcases hmemlab i hi with hEq | hEq
          · rcases hsetA with hA' | hA'
            · exact Or.inl (by rw [hEq]; exact_mod_cast hA')
            · exact Or.inr (by rw [hEq]; exact_mod_cast hA')
          · rcases hsetB with hB' | hB'
            · exact Or.inl (by rw [hEq]; exact_mod_cast hB')
            · exact Or.inr (by rw [hEq]; exact_mod_cast hB')
        rw [hclass] at htg
        have hallsome : ∀ t ∈ object_is.map (fun i => L.labels.getD i 0),
            (pyZipLookup [min iA iB, max iA iB] t).isSome := by
          intro t ht
          obtain ⟨i, hi, rfl⟩ := List.mem_map.mp ht
          rcases hmm2 i hi with hEq | hEq
          · rw [hEq, pyZipLookup_pair_min hmM]; rfl
          · rw [hEq, pyZipLookup_pair_max]; rfl
        rw [mapM_remap_ok _ _ hallsome] at htg
        have htarget : target = (object_is.map (fun i => L.labels.getD i 0)).map
            (fun t => (((pyZipLookup [min iA iB, max iA iB] t).getD 0 : ℕ) : ℤ)) :=
          (Except.ok.inj htg).symm
        refine ⟨object_is, hoi0, ?_⟩
        rw [hds]
        show target = _
        rw [htarget, List.map_map]
        apply List.map_congr_left
        intro i hi
        simp only [Function.comp_apply]
        rcases hmm2 i hi with hEq | hEq
        · rw [hEq, pyZipLookup_pair_min hmM]
          simp
        · rw [hEq, pyZipLookup_pair_max]
          have hneCast : ((max iA iB : ℕ) : ℤ) ≠ ((min iA iB : ℕ) : ℤ) := by
            intro hEq2
            exact hmM (by exact_mod_cast hEq2.symm)
          simp [hneCast, hneAB]

/-- The concrete dataset returned by `get_dataset` on `c2fm` with
`class_ids = ['B', 'A']` and standardization off. -/
def c2ds : Dataset :=
  ⟨⟨2, 1, [[10], [20]]⟩, ["o1", "o2"], ["f1"], [0, 1], ["A", "B"]⟩

/-- Witness for the amended C2 at a concrete labeling (`A` code 0, `B`
code 1): targets follow the sorted internal class index order. -/
theorem get_dataset_targets_follow_sorted_class_index_witness :
    ∃ object_is,
      object_indices c2fm (gdName (some "lab")) ["B", "A"] = Except.ok object_is ∧
      c2ds.target = object_is.map (fun i =>
        if c2L.labels.getD i 0 = ((min (List.indexOf "A" c2L.class_names)
            (List.indexOf "B" c2L.class_names) : ℕ) : ℤ) then 0 else 1) :=
  get_dataset_targets_follow_sorted_class_index c2fm c2L (some "lab") ["f1"]
    false c2ds rfl rfl (by decide) (by decide) (by decide) (by decide)
    (by decide) rfl

/-- Sums of pointwise divisions. -/
theorem sum_map_div (xs : List ℝ) (g : ℝ → ℝ) (c : ℝ) :
    (xs.map (fun x => g x / c)).sum = (xs.map g).sum / c := by
  induction xs with
  | nil => simp
  | cons a t ih =>
    simp only [List.map_cons, List.sum_cons, ih, div_add_div_same]

/-- Sums of pointwise constant subtraction. -/
theorem sum_map_sub_const (xs : List ℝ) (a : ℝ) :
    (xs.map (fun x => x - a)).sum = xs.sum - xs.length * a := by
  induction xs with
  | nil => simp
  | cons b t ih =>
    simp only [List.map_cons, List.sum_cons, List.length_cons, ih]
    push_cast
    ring

/-- A non-empty list has non-zero real length. -/
theorem length_cast_ne_zero {xs : List ℝ} (h : xs ≠ []) :
    ((xs.length : ℝ)) ≠ 0 := by
  have hp : 0 < xs.length := List.length_pos.mpr h
  exact_mod_cast hp.ne'

/-- The mean of an affinely transformed column. -/
theorem lmean_map_affine (xs : List ℝ) (hne : xs ≠ []) (a c : ℝ) :
    lmean (xs.map (fun x => (x - a) / c)) = (lmean xs - a) / c := by
  have hn := length_cast_ne_zero hne
  unfold lmean
  rw [List.length_map, sum_map_div xs (fun x => x - a) c, sum_map_sub_const]
  by_cases hc : c = 0
  · subst hc
    simp
  · have h1 : xs.sum / (xs.length : ℝ) - a =
        (xs.sum - (xs.length : ℝ) * a) / (xs.length : ℝ) := by
      field_simp
    rw [h1, div_div, div_div, mul_comm c ((xs.length : ℝ))]

/-- The population variance of a centred and scaled column. -/
theorem lvar_map_affine (xs : List ℝ) (hne : xs ≠ []) (c : ℝ) :
    lvar (xs.map (fun x => (x - lmean xs) / c)) = lvar xs / c ^ 2 := by
  unfold lvar
  rw [lmean_map_affine xs hne (lmean xs) c, sub_self, zero_div,
    List.length_map, List.map_map]
  have hfun : ((fun y : ℝ => (y - 0) ^ 2) ∘ (fun x => (x - lmean xs) / c)) =
      fun x => ((x - lmean xs) ^ 2) / c ^ 2 := by
    funext x
    simp [div_pow]
  rw [hfun, sum_map_div xs (fun x => (x - lmean xs) ^ 2) (c ^ 2), div_right_comm]

/-- Population variance is non-negative. -/
theorem lvar_nonneg (xs : List ℝ) : 0 ≤ lvar xs := by
  unfold lvar
  apply div_nonneg
  · apply List.sum_nonneg
    intro x hx
    obtain ⟨y, _, rfl⟩ := List.mem_map.mp hx
    positivity
  · positivity

/-- With non-zero variance the protected divisor is the genuine (non-zero)
population standard deviation. -/
theorem stdAdj_eq_sqrt_of_ne (xs : List ℝ) (hv : lvar xs ≠ 0) :
    stdAdj xs = Real.sqrt (lvar xs) ∧ stdAdj xs ≠ 0 := by
  have hpos : 0 < lvar xs := lt_of_le_of_ne (lvar_nonneg xs) (Ne.symm hv)
  have hs : Real.sqrt (lvar xs) ≠ 0 := by
    rw [Ne, Real.sqrt_eq_zero']
    exact not_le.mpr hpos
  unfold stdAdj lstd
  rw [if_neg hs]
  exact ⟨rfl, hs⟩

/-- Column `j` of the standardized matrix is the affinely transformed
column `j` of the input (for rows long enough to hold column `j`). -/
theorem col_standardize (A : NPMat) (j : ℕ)
    (hrect : ∀ r ∈ A.data, j < r.length) :
    npCol (standardize A) j = (npCol A j).map
      (fun x => (x - lmean (npCol A j)) / stdAdj (npCol A j)) := by
  simp only [standardize, npCol, List.map_map]
  apply List.map_congr_left
  intro r hr
  simp only [Function.comp_apply]
  have hj := hrect r hr
  rw [List.getD_eq_getElem?_getD, List.getElem?_mapIdx,
    List.getElem?_eq_getElem hj]
  simp [List.getElem?_eq_getElem hj]

/-- The mean of a constant list is that constant. -/
theorem lmean_of_const {xs : List ℝ} {c : ℝ} (hne : xs ≠ [])
    (h : ∀ x ∈ xs, x = c) : lmean xs = c := by
  have hsum : ∀ ys : List ℝ, (∀ x ∈ ys, x = c) → ys.sum = ys.length * c := by
    intro ys
    induction ys with
    | nil => intro _; simp
    | cons a t ih =>
      intro hy
      have ha := hy a (List.mem_cons_self _ _)
      simp only [List.sum_cons, List.length_cons, ha,
        ih (fun x hx => hy x (List.mem_cons_of_mem _ hx))]
      push_cast
      ring
  have hn := length_cast_ne_zero hne
  unfold lmean
  rw [hsum xs h, mul_comm, mul_div_assoc, div_self hn, mul_one]

/-- C4: standardization applies `(x - mean) / std` column-wise with the
population standard deviation and zero deviations replaced by one; hence a
column with non-zero variance gets mean 0 and standard deviation 1, and a
constant column becomes all zeros. -/
theorem standardize_columns_property (A : NPMat) (j : ℕ)
    (hrect : ∀ r ∈ A.data, j < r.length) (hne : A.data ≠ []) :
    npCol (standardize A) j = (npCol A j).map
      (fun x => (x - lmean (npCol A j)) / stdAdj (npCol A j)) ∧
    (lvar (npCol A j) ≠ 0 →
      lmean (npCol (standardize A) j) = 0 ∧
      lstd (npCol (standardize A) j) = 1) ∧
    ((∀ x ∈ npCol A j, ∀ y ∈ npCol A j, x = y) →
      npCol (standardize A) j = List.replicate A.data.length 0) := by
  have hcolne : npCol A j ≠ [] := by
    unfold npCol
    simpa using hne
  have hcol := col_standardize A j hrect
  refine ⟨hcol, ?_, ?_⟩
  · intro hv
    obtain ⟨hσ, hσne⟩ := stdAdj_eq_sqrt_of_ne _ hv
    constructor
    · rw [hcol, lmean_map_affine _ hcolne, sub_self, zero_div]
    · rw [hcol]
      unfold lstd
      rw [lvar_map_affine _ hcolne, hσ, Real.sq_sqrt (lvar_nonneg _),
        div_self hv, Real.sqrt_one]
  · intro hconst
    rw [hcol]
    apply List.eq_replicate_iff.mpr
    constructor
    · rw [List.length_map]
      unfold npCol
      rw [List.length_map]
    · intro b hb
      obtain ⟨x, hx, rfl⟩ := List.mem_map.mp hb
      have hμ : lmean (npCol A j) = x :=
        lmean_of_const hcolne (fun y hy => hconst y hy x hx)
      rw [hμ, sub_self, zero_div]

/-- A single-column matrix with entries 1, 3, 5. -/
def c4M : NPMat := ⟨3, 1, [[1], [3], [5]]⟩

/-- Witness for C4 at a concrete matrix. -/
theorem standardize_columns_property_witness :
    npCol (standardize c4M) 0 = (npCol c4M 0).map
      (fun x => (x - lmean (npCol c4M 0)) / stdAdj (npCol c4M 0)) ∧
    (lvar (npCol c4M 0) ≠ 0 →
      lmean (npCol (standardize c4M) 0) = 0 ∧
      lstd (npCol (standardize c4M) 0) = 1) ∧
    ((∀ x ∈ npCol c4M 0, ∀ y ∈ npCol c4M 0, x = y) →
      npCol (standardize c4M) 0 = List.replicate c4M.data.length 0) :=
  standardize_columns_property c4M 0 (by simp [c4M]) (by simp [c4M])

/-- The example matrix of the spec scenario: objects `p1 p2 p3`, feature
block `['aac_0_A', 'aac_0_C']`, values `[[1,2],[3,4],[5,6]]`. -/
def c3M : NPMat := ⟨3, 2, [[1, 2], [3, 4], [5, 6]]⟩

/-- Column 0 of the example matrix. -/
theorem c3_col0 : npCol c3M 0 = [1, 3, 5] := rfl

/-- The mean of the example column. -/
theorem c3_mean : lmean [(1 : ℝ), 3, 5] = 3 := by
  unfold lmean
  simp [List.sum_cons]
  norm_num

/-- The population variance of the example column. -/
theorem c3_var : lvar [(1 : ℝ), 3, 5] = 8 / 3 := by
  unfold lvar
  rw [c3_mean]
  simp [List.sum_cons]
  norm_num

/-- The protected divisor of the example column is the population standard
deviation `sqrt (8/3)`. -/
theorem c3_stdAdj : stdAdj [(1 : ℝ), 3, 5] = Real.sqrt (8 / 3) := by
  have hne : Real.sqrt ((8 : ℝ) / 3) ≠ 0 := by
    rw [Ne, Real.sqrt_eq_zero']
    norm_num
  unfold stdAdj lstd
  rw [c3_var, if_neg hne]

/-- `sqrt (3/2) * sqrt (8/3) = 2`. -/
theorem c3_sqrt_prod : Real.sqrt (3 / 2) * Real.sqrt (8 / 3) = 2 := by
  rw [← Real.sqrt_mul (by norm_num : (0 : ℝ) ≤ 3 / 2),
    show (3 / 2 : ℝ) * (8 / 3) = 4 by norm_num,
    show (4 : ℝ) = 2 ^ 2 by norm_num]
  exact Real.sqrt_sq (by norm_num)

/-- `2 / sqrt (8/3) = sqrt (3/2)`. -/
theorem c3_entry_pos : 2 / Real.sqrt (8 / 3) = Real.sqrt (3 / 2) := by
  have hne : Real.sqrt (8 / 3) ≠ 0 := by
    rw [Ne, Real.sqrt_eq_zero']
    norm_num
  rw [div_eq_iff hne]
  exact c3_sqrt_prod.symm

/-- Standardized column 0 of the example matrix, exactly. -/
theorem standardize_c3_col :
    npCol (standardize c3M) 0 = [-Real.sqrt (3 / 2), 0, Real.sqrt (3 / 2)] := by
  rw [col_standardize c3M 0 (by simp [c3M]), c3_col0, c3_mean, c3_stdAdj]
  simp only [List.map_cons, List.map_nil]
  have h1 : ((1 : ℝ) - 3) / Real.sqrt (8 / 3) = -Real.sqrt (3 / 2) := by
    rw [show ((1 : ℝ) - 3) = -2 by norm_num, neg_div, c3_entry_pos]
  have h2 : ((3 : ℝ) - 3) / Real.sqrt (8 / 3) = 0 := by norm_num
  have h3 : ((5 : ℝ) - 3) / Real.sqrt (8 / 3) = Real.sqrt (3 / 2) := by
    rw [show ((5 : ℝ) - 3) = 2 by norm_num, c3_entry_pos]
  rw [h1, h2, h3]

/-- Counterexample to C3 as stated: the standardized column 0 of the example
is not `[-1, 0, 1]` — dividing by the population standard deviation
`sqrt (8/3) ≈ 1.633` yields `±sqrt (3/2) ≈ ±1.2247`, not `±1` (the exact
values `[-1, 0, 1]` would come from the sample standard deviation 2). -/
theorem standardize_example_not_unit :
    npCol (standardize c3M) 0 ≠ [-1, 0, 1] := by
  rw [standardize_c3_col]
  intro h
  injection h with h1 _
  have h2 : Real.sqrt (3 / 2) = 1 := neg_inj.mp h1
  have h3 : (3 / 2 : ℝ) = 1 := by
    rw [← Real.sq_sqrt (by norm_num : (0 : ℝ) ≤ 3 / 2), h2]
    norm_num
  norm_num at h3

/-- C3 amended: for objects `['p1','p2','p3']` with block
`['aac_0_A','aac_0_C']` and matrix `[[1,2],[3,4],[5,6]]`, standardizing the
full matrix yields column 0 equal to `[-sqrt(3/2), 0, sqrt(3/2)]`, where the
division is by the population (not sample) standard deviation
`sqrt (8/3) ≈ 1.633` of the column whose mean is 3. -/
theorem standardize_example_population_std :
    npCol (standardize c3M) 0 = [-Real.sqrt (3 / 2), 0, Real.sqrt (3 / 2)] ∧
    stdAdj (npCol c3M 0) = Real.sqrt (8 / 3) ∧
    lmean (npCol c3M 0) = 3 :=
  ⟨standardize_c3_col, by rw [c3_col0]; exact c3_stdAdj,
   by rw [c3_col0]; exact c3_mean⟩

end Spica
